import Mathlib

/-!
Verification development for the epstein-files discovery crawler and
download orchestrator pipeline.

The Python sources are shallowly embedded as Lean functions:
* string helpers model the Python `str` and `urllib.parse` operations the
  scripts use;
* `spiderClassify` / `crawl_page` embed `scripts/spider_agent.py`
  (`SpiderTool.extract_links_htmlq`, `SpiderTool.crawl_page`);
* the `Disc` namespace embeds `scripts/discovery_agent.py`
  (`DiscoveryTool.extract_links_with_htmlq`, `DiscoveryTool.discover_from_page`);
* the `DE` namespace embeds `scripts/download_all_epstein.py`
  (`download_all_pdfs`);
* the `DO` namespace embeds `scripts/download_orchestrator.py`
  (`DownloadOrchestrator.download_pdfs`, `load_discovery_state`).

External collaborators (curl page fetching, htmlq href extraction, the
Playwright downloader, anchor-text lookup) are passed in as oracle
functions, matching the spec's PageFetcher / LinkExtractor / Downloader
capability boundaries.
-/

/-- Character-list test: `p` is an initial segment of `s`
(models Python `str.startswith` on the underlying characters). -/
def charsHavePre : List Char → List Char → Bool
  | [], _ => true
  | _ :: _, [] => false
  | a :: as, b :: bs => a == b && charsHavePre as bs

/-- Character-list test: `pat` occurs contiguously inside `s`
(models the Python `in` substring operator). -/
def charsContain (pat : List Char) : List Char → Bool
  | [] => pat.isEmpty
  | c :: rest => charsHavePre pat (c :: rest) || charsContain pat rest

/-- Python `s.startswith(p)`. -/
def strBegins (s p : String) : Bool := charsHavePre p.data s.data

/-- Python `s.endswith(p)`. -/
def strFinishes (s p : String) : Bool := charsHavePre p.data.reverse s.data.reverse

/-- Python `p in s` (substring containment). -/
def strHas (s p : String) : Bool := charsContain p.data s.data

/-- ASCII lower-casing of one character (models Python `str.lower` per char). -/
def lowerChar (c : Char) : Char :=
  if 'A' ≤ c && c ≤ 'Z' then Char.ofNat (c.toNat + 32) else c

/-- Python `s.lower()` for the ASCII strings the scripts handle. -/
def strLower (s : String) : String := ⟨s.data.map lowerChar⟩

/-- Python whitespace characters stripped by `str.strip()`. -/
def isPySpace (c : Char) : Bool := c == ' ' || c == '\t' || c == '\n' || c == '\r'

/-- Python `s.strip()`. -/
def pyStrip (s : String) : String :=
  ⟨((s.data.dropWhile isPySpace).reverse.dropWhile isPySpace).reverse⟩

/-- The characters of `s` that follow the first occurrence of `pat`,
or `none` when `pat` does not occur. -/
def afterMark (pat : List Char) : List Char → Option (List Char)
  | [] => if pat.isEmpty then some [] else none
  | c :: rest =>
    if charsHavePre pat (c :: rest) then some ((c :: rest).drop pat.length)
    else afterMark pat rest

/-- The characters of `s` before the first occurrence of `pat`,
or `none` when `pat` does not occur. -/
def beforeMark (pat : List Char) : List Char → Option (List Char)
  | [] => if pat.isEmpty then some [] else none
  | c :: rest =>
    if charsHavePre pat (c :: rest) then some []
    else (beforeMark pat rest).map (c :: ·)

/-- Characters at which the host portion of a URL ends. -/
def hostStops : List Char := ['/', '?', '#']

/-- Python `urlparse(url).netloc` for the URL shapes the scripts build:
the text between `://` and the next `/`, `?` or `#`; empty when the URL
has no scheme separator. -/
def netlocOf (url : String) : String :=
  match afterMark "://".data url.data with
  | none => ""
  | some rest => ⟨rest.takeWhile (fun c => !(hostStops.contains c))⟩

/-- Python `urlparse(url).scheme` for URLs containing `://`. -/
def schemeOf (url : String) : String :=
  ((beforeMark "://".data url.data).map (fun l => (⟨l⟩ : String))).getD ""

/-- Python `urlparse(url).path`: the text after the host, up to `?` or `#`;
for scheme-less references, everything up to `?` or `#`. -/
def pathOf (url : String) : String :=
  match afterMark "://".data url.data with
  | none => ⟨url.data.takeWhile (fun c => !(['?', '#'].contains c))⟩
  | some rest =>
    let afterHost := rest.dropWhile (fun c => !(hostStops.contains c))
    ⟨afterHost.takeWhile (fun c => !(['?', '#'].contains c))⟩

/-- Python `os.path.basename`: the characters after the last `/`. -/
def basenameOf (p : String) : String :=
  ⟨(p.data.reverse.takeWhile (· != '/')).reverse⟩

/-- Modelled from Python `urllib.parse.urljoin` for the simple relative
references the crawl encounters (base with scheme and host, no dot
segments): the last path segment of the base is replaced by the
reference. -/
def urljoin (base rel : String) : String :=
  schemeOf base ++ "://" ++ netlocOf base ++
    (⟨((pathOf base).data.reverse.dropWhile (· != '/')).reverse⟩ : String) ++ rel

example : netlocOf "https://example.justice.gov/search?q=.pdf" = "example.justice.gov" := by decide
example : pathOf "https://example.justice.gov/search?q=.pdf" = "/search" := by decide
example : schemeOf "https://example.justice.gov/page" = "https" := by decide
example : basenameOf "/files/DataSet%201/doc.pdf" = "doc.pdf" := by decide
example : strLower "Report.PDF" = "report.pdf" := by decide
example : pyStrip "  #top " = "#top" := by decide
example : strFinishes "example.justice.gov" "justice.gov" = true := by decide
example : strHas "abc bm-verify xyz" "bm-verify" = true := by decide

/-! ## SpiderTool (`scripts/spider_agent.py`) -/

/-- A link dict as built by `SpiderTool.extract_links_htmlq`:
`{'url': url, 'text': text, 'domain': parsed.netloc}`. -/
structure SLink where
  url : String
  text : String
  domain : String
deriving DecidableEq

/-- Outcome of classifying one href in `SpiderTool.extract_links_htmlq`:
dropped by one of the `continue` guards, kept as a PDF link, or kept as a
navigation link. -/
inductive SClass where
  | dropped
  | pdfLink (l : SLink)
  | navLink (l : SLink)
deriving DecidableEq

/-- URL absolutisation shared by both extractors: a leading `/` is glued to
the scheme and host of the base URL, a non-`http` href goes through
`urljoin`, anything else is already absolute. -/
def resolveHref (base href : String) : String :=
  if strBegins href "/" then schemeOf base ++ "://" ++ netlocOf base ++ href
  else if !(strBegins href "http") then urljoin base href
  else href

/-- One iteration of the href loop in `SpiderTool.extract_links_htmlq`
(lines 161-194). `textOf` is the htmlq anchor-text lookup for the resolved
URL (an external subprocess, passed as an oracle); its result is stripped
and truncated to 100 characters as in the source. -/
def spiderClassify (textOf : String → String) (base href0 : String) : SClass :=
  let href := pyStrip href0
  if href = "" || strBegins href "#" || strBegins href "javascript:" then .dropped
  else
    let url := resolveHref base href
    if !(strFinishes (netlocOf url) "justice.gov") then .dropped
    else
      let text : String := ⟨(pyStrip (textOf url)).data.take 100⟩
      let l : SLink := ⟨url, text, netlocOf url⟩
      if strFinishes (strLower url) ".pdf" then .pdfLink l else .navLink l

/-- The href loop of `SpiderTool.extract_links_htmlq`: classify every href,
collecting `(pdfs, nav_links)` in order. -/
def spiderExtract (textOf : String → String) (base : String) :
    List String → List SLink × List SLink
  | [] => ([], [])
  | h :: rest =>
    let r := spiderExtract textOf base rest
    match spiderClassify textOf base h with
    | .dropped => r
    | .pdfLink l => (l :: r.1, r.2)
    | .navLink l => (r.1, l :: r.2)

/-- An entry of `SpiderTool.discovered_pdfs`:
the link dict merged with `source_page` and `depth`. -/
structure SPdf where
  url : String
  text : String
  domain : String
  source_page : String
  depth : Nat
deriving DecidableEq

/-- The mutable state of a `SpiderTool` instance: the configured
`max_depth`, the `visited` set (a list with membership semantics) and the
`discovered_pdfs` sequence. -/
structure SpiderState where
  max_depth : Nat
  visited : List String
  discovered_pdfs : List SPdf
deriving DecidableEq

/-- A fresh `SpiderTool` (its `__init__`): empty visited set and no
discovered PDFs. -/
def initSpider (max_depth : Nat) : SpiderState :=
  ⟨max_depth, [], []⟩

/-- The PDF-storing loop of `SpiderTool.crawl_page` (lines 267-274): each
PDF link found on the page is appended only when its URL is not already
among the recorded PDF URLs; `source_page` and `depth` come from the
current crawl step. -/
def addPdfs (source_page : String) (depth : Nat) :
    List SLink → List SPdf → List SPdf
  | [], acc => acc
  | l :: ls, acc =>
    if l.url ∈ acc.map SPdf.url then addPdfs source_page depth ls acc
    else addPdfs source_page depth ls (acc ++ [⟨l.url, l.text, l.domain, source_page, depth⟩])

/-- The result of one `SpiderTool.crawl_page` call, as the caller sees it
(`None` for the first three shapes, `PageData` for success). -/
inductive SOutcome where
  | skipped
  | fetchFailed
  | blocked
  | success (pdfs navs : List SLink)
deriving DecidableEq

/-- `SpiderTool.crawl_page` (lines 243-290). `fetch` models the curl-based
`fetch_page`, `hrefsOf` the htmlq href extraction from the fetched markup.
The third component of the result is the list of URLs this call passed to
the page fetcher (empty or the singleton of the requested URL). -/
def crawl_page (fetch : String → Option String) (hrefsOf : String → List String)
    (textOf : String → String) (url : String) (depth : Nat) (s : SpiderState) :
    SpiderState × SOutcome × List String :=
  if depth > s.max_depth ∨ url ∈ s.visited then (s, .skipped, [])
  else
    let s1 : SpiderState := { s with visited := s.visited ++ [url] }
    match fetch url with
    | none => (s1, .fetchFailed, [url])
    | some html =>
      if strHas html "bm-verify" || strHas (strLower html) "akamai" then
        (s1, .blocked, [url])
      else
        let pn := spiderExtract textOf url (hrefsOf html)
        ({ s1 with discovered_pdfs := addPdfs url depth pn.1 s1.discovered_pdfs },
         .success pn.1 pn.2, [url])

/-- A crawl session: the driving loop feeds a sequence of
`(url, depth)` requests to `crawl_page`, threading the state and
concatenating the fetch logs. -/
def crawlRun (fetch : String → Option String) (hrefsOf : String → List String)
    (textOf : String → String) : List (String × Nat) → SpiderState →
    SpiderState × List String
  | [], s => (s, [])
  | (u, d) :: rest, s =>
    let r := crawl_page fetch hrefsOf textOf u d s
    let rr := crawlRun fetch hrefsOf textOf rest r.1
    (rr.1, r.2.2 ++ rr.2)

example :
    spiderClassify (fun _ => "") "https://example.justice.gov/page" "/files/report.PDF" =
      SClass.pdfLink ⟨"https://example.justice.gov/files/report.PDF", "", "example.justice.gov"⟩ := by
  decide

example :
    spiderClassify (fun _ => "") "https://example.justice.gov/page" "/search?q=.pdf" =
      SClass.pdfLink ⟨"https://example.justice.gov/search?q=.pdf", "", "example.justice.gov"⟩ := by
  decide

example :
    spiderClassify (fun _ => "") "https://example.justice.gov/page" "https://other.com/c.pdf" =
      SClass.dropped := by
  decide

example :
    spiderClassify (fun _ => "anchor") "https://example.justice.gov/page" "/about" =
      SClass.navLink ⟨"https://example.justice.gov/about", "anchor", "example.justice.gov"⟩ := by
  decide

/-! ## DiscoveryTool (`scripts/discovery_agent.py`) -/

namespace Disc

/-- A link dict as built by `DiscoveryTool.extract_links_with_htmlq`:
`{'url', 'text', 'is_pdf', 'domain'}`. -/
structure DLink where
  url : String
  text : String
  is_pdf : Bool
  domain : String
deriving DecidableEq

/-- The href loop of `DiscoveryTool.extract_links_with_htmlq` (lines
73-99): empty, fragment and javascript hrefs are dropped, the rest are
absolutised and kept with their anchor text (stripped oracle output,
first 100 characters), a full-URL case-insensitive `.pdf` suffix flag and
the parsed host. No domain filtering happens here. -/
def extract_links (textOf : String → String) (base : String) :
    List String → List DLink
  | [] => []
  | u0 :: rest =>
    let u := pyStrip u0
    if u ≠ "" ∧ strBegins u "#" = false ∧ strBegins u "javascript:" = false then
      let url := resolveHref base u
      ⟨url, ⟨(pyStrip (textOf url)).data.take 100⟩,
        strFinishes (strLower url) ".pdf", netlocOf url⟩ ::
        extract_links textOf base rest
    else extract_links textOf base rest

/-- An entry of `DiscoveryTool.discovered_pdfs`: the link dict merged with
`source_page` and `depth`. -/
structure DPdf where
  url : String
  text : String
  is_pdf : Bool
  domain : String
  source_page : String
  depth : Nat
deriving DecidableEq

/-- The `DiscoveredLink` dataclass of `discovery_agent.py`. -/
structure DNav where
  url : String
  text : String
  context : String
  depth : Nat
  source_page : String
deriving DecidableEq

/-- The mutable state of a `DiscoveryTool` instance. -/
structure DiscState where
  max_depth : Nat
  visited : List String
  discovered_links : List DNav
  discovered_pdfs : List DPdf
deriving DecidableEq

/-- A fresh `DiscoveryTool` (its `__init__`). -/
def initDisc (max_depth : Nat) : DiscState :=
  ⟨max_depth, [], [], []⟩

/-- The nav-link storing loop of `DiscoveryTool.discover_from_page` (lines
171-180): a navigation link is appended only when its URL is not already
among the recorded `discovered_links` URLs. `contextOf html url` models
the in-source regex helper `_extract_context`. -/
def addNavs (contextOf : String → String → String) (html source_page : String)
    (depth : Nat) : List DLink → List DNav → List DNav
  | [], acc => acc
  | l :: ls, acc =>
    if l.url ∈ acc.map DNav.url then addNavs contextOf html source_page depth ls acc
    else addNavs contextOf html source_page depth ls
      (acc ++ [⟨l.url, l.text, contextOf html l.url, depth, source_page⟩])

/-- The `status` field of the dict returned by
`DiscoveryTool.discover_from_page`. -/
inductive DStatus where
  | skipped
  | fetchError
  | blocked
  | success
deriving DecidableEq

/-- `DiscoveryTool.discover_from_page` (lines 132-194). PDFs found on the
page are appended to `discovered_pdfs` unconditionally (lines 163-169);
only nav links go through the first-seen dedup. The third component is
the list of URLs passed to the page fetcher by this call. -/
def discover_from_page (fetch : String → Option String)
    (hrefsOf : String → List String) (textOf : String → String)
    (contextOf : String → String → String) (url : String) (depth : Nat)
    (s : DiscState) : DiscState × DStatus × List String :=
  if depth > s.max_depth ∨ url ∈ s.visited then (s, .skipped, [])
  else
    let s1 : DiscState := { s with visited := s.visited ++ [url] }
    match fetch url with
    | none => (s1, .fetchError, [url])
    | some html =>
      if strHas html "bm-verify" || strHas (strLower html) "akamai" then
        (s1, .blocked, [url])
      else
        let links := extract_links textOf url (hrefsOf html)
        let pdfs := links.filter (fun l => l.is_pdf)
        let navs := links.filter
          (fun l => !l.is_pdf && strFinishes l.domain "justice.gov")
        let s2 : DiscState := { s1 with
          discovered_pdfs := s1.discovered_pdfs ++
            pdfs.map (fun p => ⟨p.url, p.text, p.is_pdf, p.domain, url, depth⟩),
          discovered_links := addNavs contextOf html url depth navs s1.discovered_links }
        (s2, .success, [url])

/-- A discovery session: repeated `discover_from_page` calls driven by a
request list, threading the state and concatenating the fetch logs. -/
def discRun (fetch : String → Option String) (hrefsOf : String → List String)
    (textOf : String → String) (contextOf : String → String → String) :
    List (String × Nat) → DiscState → DiscState × List String
  | [], s => (s, [])
  | (u, d) :: rest, s =>
    let r := discover_from_page fetch hrefsOf textOf contextOf u d s
    let rr := discRun fetch hrefsOf textOf contextOf rest r.1
    (rr.1, r.2.2 ++ rr.2)

end Disc

example :
    (Disc.discRun (fun _ => some "page") (fun _ => ["/x.pdf"]) (fun _ => "")
        (fun _ _ => "")
        [("https://www.justice.gov/a", 0), ("https://www.justice.gov/b", 0)]
        (Disc.initDisc 3)).1.discovered_pdfs.map Disc.DPdf.url =
      ["https://www.justice.gov/x.pdf", "https://www.justice.gov/x.pdf"] := by
  decide

/-! ## Downloader capability and disk model -/

/-- The outcome of the Playwright `page.evaluate` fetch used by every
download script: an error dict (`{error: msg}` or a raised exception
message), a well-formed base64 data URL whose decoded bytes are
`bytes`, or a response that is not a data-URL string at all. -/
inductive DlResult where
  | errorResp (msg : String)
  | payload (bytes : List Nat)
  | invalidResp
deriving DecidableEq

/-- The filesystem seen by the download scripts: file path to content
bytes; `os.path.exists` is `≠ none`, `os.path.getsize` is the length. -/
def Disk : Type := String → Option (List Nat)

/-- `open(path, 'wb'); f.write(bytes)`. -/
def writeDisk (disk : Disk) (p : String) (b : List Nat) : Disk :=
  fun q => if q = p then some b else disk q

/-- The `%PDF` magic bytes checked by `binary_data[:4] == b"%PDF"`. -/
def pdfMagic : List Nat := [37, 80, 68, 70]

/-! ## download_all_pdfs (`scripts/download_all_epstein.py`) -/

namespace DE

/-- An entry of the `downloaded` list in `download_all_pdfs`: the dicts
appended at lines 106-111 (`already_exists`, no `size` key, modelled as
`none`) and 149-155 (`downloaded`, with `size`). -/
structure DldRec where
  url : String
  filename : String
  status : String
  size : Option Nat
  path : String
deriving DecidableEq

/-- An entry of the `failed` list in `download_all_pdfs`. -/
structure FailRec where
  url : String
  filename : String
  error : String
deriving DecidableEq

/-- The one record produced for a URL: appended to `downloaded` (`ok`)
or to `failed` (`bad`). -/
inductive MRec where
  | ok (r : DldRec)
  | bad (f : FailRec)
deriving DecidableEq

/-- The `url` field of a produced record. -/
def MRec.url : MRec → String
  | .ok r => r.url
  | .bad f => f.url

/-- The `status` of a produced record; entries of the `failed` list have
no status key and are reported as failed. -/
def MRec.status : MRec → String
  | .ok r => r.status
  | .bad _ => "failed"

/-- The state threaded through the loop of `download_all_pdfs`: the two
record lists and the filesystem. -/
structure DEState where
  downloaded : List DldRec
  failed : List FailRec
  disk : Disk

/-- A fresh run of `download_all_pdfs` over a given filesystem:
`downloaded` and `failed` start empty (lines 71-72). -/
def initDE (disk : Disk) : DEState :=
  ⟨[], [], disk⟩

/-- The output directory `reference/epstein_files`. -/
def epstein_dir : String := "reference/epstein_files"

/-- The dataset-prefix heuristic of lines 93-98: scan `d = 1..9` for a
`DataSet%20d` or `DataSet d` substring; `unknown` when none matches. -/
def datasetTag (url : String) : String :=
  if strHas url "DataSet%20" || strHas url "DataSet " then
    match [1, 2, 3, 4, 5, 6, 7, 8, 9].find? (fun d =>
        strHas url ("DataSet%20" ++ toString d) || strHas url ("DataSet " ++ toString d)) with
    | some d => "dataset_" ++ toString d
    | none => "unknown"
  else "unknown"

/-- `output_filename = f"{dataset}_{filename}"` with
`filename = os.path.basename(urlparse(url).path)` (lines 89-100). -/
def outputFilenameOf (url : String) : String :=
  datasetTag url ++ "_" ++ basenameOf (pathOf url)

/-- `output_path = os.path.join(epstein_dir, output_filename)`. -/
def outputPathOf (url : String) : String :=
  epstein_dir ++ "/" ++ outputFilenameOf url

/-- The fetch-and-verify part of one loop iteration (lines 116-167): the
downloader runs; an error or malformed response becomes a `failed` entry;
a payload is written and recorded as `downloaded` only when it starts
with `%PDF`, else it becomes a `failed` entry and the disk is untouched. -/
def fetchStep (dl : String → DlResult) (url ofn path : String) (s : DEState) :
    DEState × MRec × List String :=
  match dl url with
  | .errorResp m =>
    let f : FailRec := ⟨url, ofn, m⟩
    ({ s with failed := s.failed ++ [f] }, .bad f, [url])
  | .invalidResp =>
    let f : FailRec := ⟨url, ofn, "Invalid response format"⟩
    ({ s with failed := s.failed ++ [f] }, .bad f, [url])
  | .payload b =>
    if b.take 4 = pdfMagic then
      let r : DldRec := ⟨url, ofn, "downloaded", some b.length, path⟩
      ({ s with disk := writeDisk s.disk path b, downloaded := s.downloaded ++ [r] },
       .ok r, [url])
    else
      let f : FailRec := ⟨url, ofn, "Not a valid PDF file"⟩
      ({ s with failed := s.failed ++ [f] }, .bad f, [url])

/-- One iteration of the loop in `download_all_pdfs` (lines 87-170): when
a file already exists at the derived output path with size above 1000
bytes, an `already_exists` record is appended and nothing is fetched;
otherwise the downloader is invoked. The last component is the list of
URLs handed to the downloader by this iteration. -/
def step (dl : String → DlResult) (url : String) (s : DEState) :
    DEState × MRec × List String :=
  let ofn := outputFilenameOf url
  let path := outputPathOf url
  match s.disk path with
  | some f =>
    if f.length > 1000 then
      let r : DldRec := ⟨url, ofn, "already_exists", none, path⟩
      ({ s with downloaded := s.downloaded ++ [r] }, .ok r, [])
    else fetchStep dl url ofn path s
  | none => fetchStep dl url ofn path s

/-- The whole `download_all_pdfs` loop: one record per URL, in input
order, together with the downloader invocation log. -/
def run (dl : String → DlResult) : List String → DEState →
    DEState × List MRec × List String
  | [], s => (s, [], [])
  | u :: rest, s =>
    let r := step dl u s
    let rr := run dl rest r.1
    (rr.1, r.2.1 :: rr.2.1, r.2.2 ++ rr.2.2)

end DE

/-! ## DownloadOrchestrator.download_pdfs (`scripts/download_orchestrator.py`) -/

namespace DO

/-- An entry of `DownloadOrchestrator.downloaded` (lines 58-63 and
100-106): `already_exists` entries carry no `size` key. -/
structure ORec where
  url : String
  filename : String
  status : String
  size : Option Nat
  path : String
deriving DecidableEq

/-- An entry of `DownloadOrchestrator.failed`. -/
structure OFail where
  url : String
  filename : String
  error : String
deriving DecidableEq

/-- The one record produced for a URL by the orchestrator loop. -/
inductive OMRec where
  | ok (r : ORec)
  | bad (f : OFail)
deriving DecidableEq

/-- The `url` field of a produced orchestrator record. -/
def OMRec.url : OMRec → String
  | .ok r => r.url
  | .bad f => f.url

/-- The `DownloadOrchestrator` state: its two record lists and the
filesystem (its `output_dir` defaults to `reference`). -/
structure OState where
  downloaded : List ORec
  failed : List OFail
  disk : Disk

/-- A fresh `DownloadOrchestrator` over a given filesystem. -/
def initDO (disk : Disk) : OState :=
  ⟨[], [], disk⟩

/-- The orchestrator output directory. -/
def output_dir : String := "reference"

/-- Filename derivation of lines 47-51: the basename of the URL path,
replaced by the index-based `epstein_doc_{i}.pdf` when empty or not
ending in `.pdf` (the loop index `i` is 1-based). -/
def filenameFor (i : Nat) (url : String) : String :=
  let fn := basenameOf (pathOf url)
  if fn = "" || !(strFinishes fn ".pdf") then "epstein_doc_" ++ toString i ++ ".pdf"
  else fn

/-- `output_path = os.path.join(self.output_dir, filename)`. -/
def pathFor (i : Nat) (url : String) : String :=
  output_dir ++ "/" ++ filenameFor i url

/-- One iteration of `DownloadOrchestrator.download_pdfs` (lines 45-119):
skip with an `already_exists` record whenever the file exists (no size
threshold); otherwise invoke the downloader and record the payload as
`downloaded` — the orchestrator performs no `%PDF` signature check and
writes whatever bytes it received. -/
def step (dl : String → DlResult) (i : Nat) (url : String) (s : OState) :
    OState × OMRec × List String :=
  let fn := filenameFor i url
  let path := pathFor i url
  match s.disk path with
  | some _ =>
    let r : ORec := ⟨url, fn, "already_exists", none, path⟩
    ({ s with downloaded := s.downloaded ++ [r] }, .ok r, [])
  | none =>
    match dl url with
    | .errorResp m =>
      let f : OFail := ⟨url, fn, m⟩
      ({ s with failed := s.failed ++ [f] }, .bad f, [url])
    | .invalidResp =>
      let f : OFail := ⟨url, fn, "Invalid response format"⟩
      ({ s with failed := s.failed ++ [f] }, .bad f, [url])
    | .payload b =>
      let r : ORec := ⟨url, fn, "downloaded", some b.length, path⟩
      ({ s with disk := writeDisk s.disk path b, downloaded := s.downloaded ++ [r] },
       .ok r, [url])

/-- The loop of `download_pdfs` from index `i`. -/
def runFrom (dl : String → DlResult) (i : Nat) : List String → OState →
    OState × List OMRec × List String
  | [], s => (s, [], [])
  | u :: rest, s =>
    let r := step dl i u s
    let rr := runFrom dl (i + 1) rest r.1
    (rr.1, r.2.1 :: rr.2.1, r.2.2 ++ rr.2.2)

/-- `DownloadOrchestrator.download_pdfs`: enumerate from 1. -/
def download_pdfs (dl : String → DlResult) (urls : List String) (s : OState) :
    OState × List OMRec × List String :=
  runFrom dl 1 urls s

end DO

/-! ## load_discovery_state (`scripts/download_orchestrator.py` lines 167-176) -/

/-- What the persisted discovery-state file can look like to the loader:
absent, present but not valid JSON, or valid JSON whose `pdfs` key holds
the given URLs (`state.get('pdfs', [])` defaults a missing key to `[]`,
folded into `valid`). -/
inductive StateFile where
  | missing
  | corrupt
  | valid (pdfs : List String)
deriving DecidableEq

/-- `load_discovery_state`: the `try` block catches only
`FileNotFoundError` and returns `[]`; invalid JSON makes `json.load`
raise `json.JSONDecodeError`, which propagates to the caller. -/
def load_discovery_state : StateFile → Except String (List String)
  | .missing => .ok []
  | .corrupt => .error "json.JSONDecodeError"
  | .valid pdfs => .ok pdfs

example : DE.outputFilenameOf "https://www.justice.gov/files/DataSet%201/doc.pdf" =
    "dataset_1_doc.pdf" := by decide
example : DE.outputFilenameOf "https://www.justice.gov/x/a.pdf" = "unknown_a.pdf" := by decide
example : DO.filenameFor 3 "https://www.justice.gov/x/" = "epstein_doc_3.pdf" := by decide
example : DO.filenameFor 1 "https://www.justice.gov/x/a.pdf" = "a.pdf" := by decide

/-! ## Concrete fixtures for witnesses and counterexamples -/

/-- A downloader that always reports an HTTP error. -/
def dlErr : String → DlResult := fun _ => DlResult.errorResp "HTTP 403"

/-- A downloader that returns a 3-byte payload that is not a PDF. -/
def dlBad : String → DlResult := fun _ => DlResult.payload [1, 2, 3]

/-- A downloader that returns a valid but tiny (5-byte) PDF payload. -/
def dlTiny : String → DlResult := fun _ => DlResult.payload [37, 80, 68, 70, 1]

/-- An empty filesystem. -/
def emptyDisk : Disk := fun _ => none

/-- A document URL without a dataset tag. -/
def uPlain : String := "https://www.justice.gov/x/a.pdf"

/-- A plausibly-sized (1001-byte) file content. -/
def bigFile : List Nat := List.replicate 1001 0

/-- A filesystem already holding a plausibly-sized file at the output
path `download_all_pdfs` derives for `uPlain`. -/
def diskBig : Disk :=
  fun q => if q = "reference/epstein_files/unknown_a.pdf" then some bigFile else none

/-- The URL used in the re-run counterexample. -/
def uTiny : String := "https://www.justice.gov/f/tiny.pdf"

/-- Two distinct URLs whose paths share the last segment `doc.pdf`. -/
def uDocA : String := "https://www.justice.gov/x/doc.pdf"

/-- Second URL with the same last path segment as `uDocA`. -/
def uDocB : String := "https://www.justice.gov/y/doc.pdf"

/-- A page fetcher that always returns a fixed benign markup. -/
def fetchPage : String → Option String := fun _ => some "page"

/-- An href extractor that finds no links. -/
def noHrefs : String → List String := fun _ => []

/-- An href extractor that always finds one root-relative PDF link. -/
def onePdfHref : String → List String := fun _ => ["/x.pdf"]

/-- An anchor-text oracle returning empty text. -/
def noText : String → String := fun _ => ""

/-- A context oracle returning empty context. -/
def noContext : String → String → String := fun _ _ => ""

/-! ## Helper lemmas: download models -/

theorem DE.step_skip (dl : String → DlResult) (url : String) (s : DEState)
    (f : List Nat) (hex : s.disk (DE.outputPathOf url) = some f)
    (hsz : f.length > 1000) :
    DE.step dl url s =
      ({ s with downloaded := s.downloaded ++
          [⟨url, DE.outputFilenameOf url, "already_exists", none, DE.outputPathOf url⟩] },
       DE.MRec.ok ⟨url, DE.outputFilenameOf url, "already_exists", none, DE.outputPathOf url⟩,
       []) := by
  simp [DE.step, hex, hsz]

theorem DE.de_step_url (dl : String → DlResult) (url : String) (s : DEState) :
    ((DE.step dl url s).2.1).url = url := by
  cases hd : s.disk (DE.outputPathOf url) <;> cases hdl : dl url <;>
    simp only [DE.step, DE.fetchStep, hd, hdl] <;> (repeat' split) <;>
    simp [DE.MRec.url]

theorem DO.do_step_url (dl : String → DlResult) (i : Nat) (url : String) (s : OState) :
    ((DO.step dl i url s).2.1).url = url := by
  cases hd : s.disk (DO.pathFor i url) <;> cases hdl : dl url <;>
    simp [DO.step, hd, hdl, DO.OMRec.url]

theorem DO.runFrom_rec_urls (dl : String → DlResult) :
    ∀ (urls : List String) (i : Nat) (s : OState),
      ((DO.runFrom dl i urls s).2.1).map DO.OMRec.url = urls
  | [], _, _ => rfl
  | u :: rest, i, s => by
    simp only [DO.runFrom, List.map_cons]
    rw [DO.do_step_url dl i u s, DO.runFrom_rec_urls dl rest (i + 1) _]

theorem DE.run_skip_all (dl : String → DlResult) :
    ∀ (urls : List String) (s : DEState),
      (∀ u ∈ urls, ∃ f, s.disk (DE.outputPathOf u) = some f ∧ f.length > 1000) →
      (∀ r ∈ (DE.run dl urls s).2.1, DE.MRec.status r = "already_exists") ∧
        (DE.run dl urls s).2.2 = []
  | [], s, _ => by simp [DE.run]
  | u :: rest, s, hbig => by
    obtain ⟨f, hex, hsz⟩ := hbig u (List.mem_cons_self u rest)
    have hstep := DE.step_skip dl u s f hex hsz
    have hrest := DE.run_skip_all dl rest (DE.step dl u s).1 (by
      intro v hv
      obtain ⟨g, hg, hgs⟩ := hbig v (List.mem_cons_of_mem u hv)
      refine ⟨g, ?_, hgs⟩
      rw [hstep]
      exact hg)
    constructor
    · intro r hr
      simp only [DE.run, List.mem_cons] at hr
      rcases hr with hr | hr
      · subst hr
        rw [hstep]
        rfl
      · exact hrest.1 r hr
    · simp only [DE.run, hrest.2, List.append_nil]
      rw [hstep]

theorem bigFile_len : bigFile.length = 1001 := by
  unfold bigFile
  rw [List.length_replicate]

theorem bigFile_big : bigFile.length > 1000 := by
  rw [bigFile_len]
  norm_num

/-! ## Claim theorems -/

/-- C1 (amended): in `download_all_pdfs`, if a file already exists at the
derived output path with size above the 1000-byte plausibility threshold,
the iteration records an `already_exists` entry for the URL — with no
size field (`size = none`), unlike the claim's "carrying the existing
size" — and never invokes the Downloader (empty invocation log). -/
theorem C1_idempotent_skip (dl : String → DlResult) (url : String) (s : DE.DEState)
    (f : List Nat) (hex : s.disk (DE.outputPathOf url) = some f)
    (hsz : f.length > 1000) :
    DE.step dl url s =
      ({ s with downloaded := s.downloaded ++
          [⟨url, DE.outputFilenameOf url, "already_exists", none, DE.outputPathOf url⟩] },
       DE.MRec.ok ⟨url, DE.outputFilenameOf url, "already_exists", none, DE.outputPathOf url⟩,
       []) :=
  DE.step_skip dl url s f hex hsz

/-- C1 witness: a concrete 1001-byte file at the derived path makes the
step record `already_exists` (with `size = none`) without re-fetching. -/
theorem C1_idempotent_skip_witness :
    diskBig (DE.outputPathOf uPlain) = some bigFile ∧ bigFile.length > 1000 ∧
      (DE.step dlErr uPlain ⟨[], [], diskBig⟩).2.1 =
        DE.MRec.ok ⟨uPlain, DE.outputFilenameOf uPlain, "already_exists", none,
          DE.outputPathOf uPlain⟩ ∧
      (DE.step dlErr uPlain ⟨[], [], diskBig⟩).2.2 = [] :=
  ⟨rfl, bigFile_big,
    by rw [C1_idempotent_skip dlErr uPlain ⟨[], [], diskBig⟩ bigFile rfl bigFile_big],
    by rw [C1_idempotent_skip dlErr uPlain ⟨[], [], diskBig⟩ bigFile rfl bigFile_big]⟩

/-- C1 counterexample: at a concrete input the `already_exists` record
produced by `download_all_pdfs` has `size = none`, even though the
existing file's size is 1001 bytes — the record does not carry the
existing size, contradicting the claim. -/
theorem C1_no_size_counterexample :
    (DE.step dlErr uPlain ⟨[], [], diskBig⟩).2.1 =
      DE.MRec.ok ⟨uPlain, "unknown_a.pdf", "already_exists", none,
        "reference/epstein_files/unknown_a.pdf"⟩ ∧
      (diskBig (DE.outputPathOf uPlain)).map List.length = some 1001 := by
  constructor
  · rw [DE.step_skip dlErr uPlain ⟨[], [], diskBig⟩ bigFile rfl bigFile_big]
    rfl
  · have h1 : diskBig (DE.outputPathOf uPlain) = some bigFile := rfl
    rw [h1]
    simp only [Option.map_some']
    rw [bigFile_len]

/-- C2 (amended): in `download_all_pdfs` (and likewise
`download_with_age_verification`), a fetched payload that does not begin
with the `%PDF` magic bytes yields a `failed` record with error
`Not a valid PDF file`; the bytes are never written (disk unchanged) and
no `downloaded` entry is added. `DownloadOrchestrator.download_pdfs`,
however, performs no signature check at all (see the counterexample). -/
theorem C2_verification_gate (dl : String → DlResult) (url : String) (s : DE.DEState)
    (b : List Nat) (hdisk : s.disk (DE.outputPathOf url) = none)
    (hdl : dl url = DlResult.payload b) (hbad : ¬(b.take 4 = pdfMagic)) :
    DE.step dl url s =
      ({ s with failed := s.failed ++
          [⟨url, DE.outputFilenameOf url, "Not a valid PDF file"⟩] },
       DE.MRec.bad ⟨url, DE.outputFilenameOf url, "Not a valid PDF file"⟩, [url]) := by
  simp [DE.step, DE.fetchStep, hdisk, hdl, hbad]

/-- C2 witness: a concrete non-PDF payload is recorded as failed and
nothing is written. -/
theorem C2_verification_gate_witness :
    emptyDisk (DE.outputPathOf uPlain) = none ∧ dlBad uPlain = DlResult.payload [1, 2, 3] ∧
      ¬([1, 2, 3].take 4 = pdfMagic) ∧
      DE.step dlBad uPlain (DE.initDE emptyDisk) =
        ({ downloaded := [], failed := [⟨uPlain, DE.outputFilenameOf uPlain,
            "Not a valid PDF file"⟩], disk := emptyDisk },
         DE.MRec.bad ⟨uPlain, DE.outputFilenameOf uPlain, "Not a valid PDF file"⟩,
         [uPlain]) :=
  ⟨rfl, rfl, by decide,
    C2_verification_gate dlBad uPlain (DE.initDE emptyDisk) [1, 2, 3] rfl rfl (by decide)⟩

/-- C2 counterexample: `DownloadOrchestrator.download_pdfs` has no
signature check — a payload that does not start with `%PDF` is written to
the output path and recorded with status `downloaded`, contradicting the
claim for this cited code path. -/
theorem C2_orchestrator_counterexample :
    (DO.download_pdfs dlBad [uDocA] (DO.initDO emptyDisk)).1.downloaded =
      [⟨uDocA, "doc.pdf", "downloaded", some 3, "reference/doc.pdf"⟩] ∧
      (DO.download_pdfs dlBad [uDocA] (DO.initDO emptyDisk)).1.disk "reference/doc.pdf" =
        some [1, 2, 3] ∧
      ¬([1, 2, 3].take 4 = pdfMagic) := by
  refine ⟨?_, ?_, by decide⟩ <;> decide

/-- C3 (amended): `DownloadOrchestrator.download_pdfs` appends exactly one
record per processed URL: the record URLs, in order, are exactly the
input URLs (hence `records.length = inputs.length`, and a failure on one
URL never prevents the records for the remaining URLs); record URLs are
pairwise distinct provided the input URLs are — but an input list with a
repeated URL yields repeated record URLs, which the counterexample shows. -/
theorem C3_manifest_completeness (dl : String → DlResult) (urls : List String)
    (s : DO.OState) :
    ((DO.download_pdfs dl urls s).2.1).map DO.OMRec.url = urls ∧
      ((DO.download_pdfs dl urls s).2.1).length = urls.length ∧
      (urls.Nodup → (((DO.download_pdfs dl urls s).2.1).map DO.OMRec.url).Nodup) := by
  have h : ((DO.download_pdfs dl urls s).2.1).map DO.OMRec.url = urls :=
    DO.runFrom_rec_urls dl urls 1 s
  refine ⟨h, ?_, fun hnd => ?_⟩
  · have := congrArg List.length h
    simpa using this
  · rw [h]
    exact hnd

/-- C3 witness: on a duplicate-free two-URL input the record URLs are the
inputs and are pairwise distinct. -/
theorem C3_manifest_completeness_witness :
    ([uDocA, uDocB] : List String).Nodup ∧
      (((DO.download_pdfs dlErr [uDocA, uDocB] (DO.initDO emptyDisk)).2.1).map
        DO.OMRec.url).Nodup :=
  ⟨by decide,
    (C3_manifest_completeness dlErr [uDocA, uDocB] (DO.initDO emptyDisk)).2.2 (by decide)⟩

/-- C3 counterexample: an input list repeating one URL produces two
records with the same `url` value, contradicting the claim's
unconditional "no two records share the same url value". -/
theorem C3_duplicate_counterexample :
    ((DO.download_pdfs dlErr [uDocA, uDocA] (DO.initDO emptyDisk)).2.1).map DO.OMRec.url =
      [uDocA, uDocA] ∧
      ¬(((DO.download_pdfs dlErr [uDocA, uDocA] (DO.initDO emptyDisk)).2.1).map
        DO.OMRec.url).Nodup := by
  constructor <;> decide

/-- C8 (amended): a `download_all_pdfs` run over a filesystem that holds,
at every input URL's derived output path, a file larger than 1000 bytes —
in particular the filesystem left by a first run in which every URL ended
`downloaded` or `already_exists` with more than 1000 bytes — yields only
`already_exists` records and never invokes the Downloader. The
unqualified claim fails when a first-run success wrote a file of at most
1000 bytes (see the counterexample). -/
theorem C8_download_idempotence (dl : String → DlResult) (urls : List String)
    (s : DE.DEState)
    (hbig : ∀ u ∈ urls, ∃ f, s.disk (DE.outputPathOf u) = some f ∧ f.length > 1000) :
    (∀ r ∈ (DE.run dl urls s).2.1, DE.MRec.status r = "already_exists") ∧
      (DE.run dl urls s).2.2 = [] :=
  DE.run_skip_all dl urls s hbig

/-- C8 witness: with a plausibly-sized file already on disk, the re-run
records only `already_exists` and performs no downloader call. -/
theorem C8_download_idempotence_witness :
    (∀ u ∈ [uPlain], ∃ f, diskBig (DE.outputPathOf u) = some f ∧ f.length > 1000) ∧
      (∀ r ∈ (DE.run dlErr [uPlain] ⟨[], [], diskBig⟩).2.1,
        DE.MRec.status r = "already_exists") ∧
      (DE.run dlErr [uPlain] ⟨[], [], diskBig⟩).2.2 = [] := by
  have hb : ∀ u ∈ [uPlain], ∃ f, diskBig (DE.outputPathOf u) = some f ∧ f.length > 1000 := by
    intro u hu
    rw [List.mem_singleton] at hu
    subst hu
    exact ⟨bigFile, rfl, bigFile_big⟩
  exact ⟨hb, C8_download_idempotence dlErr [uPlain] ⟨[], [], diskBig⟩ hb⟩

/-- C8 counterexample: a first run downloads a valid 5-byte PDF; because
5 ≤ 1000, the second run over the resulting filesystem re-invokes the
Downloader and records `downloaded` again — not 100% `AlreadyExists`
with zero duplicate network calls as claimed. -/
theorem C8_rerun_counterexample :
    ((DE.run dlTiny [uTiny] (DE.initDE emptyDisk)).2.1).map DE.MRec.status =
      ["downloaded"] ∧
      ((DE.run dlTiny [uTiny]
        ⟨[], [], (DE.run dlTiny [uTiny] (DE.initDE emptyDisk)).1.disk⟩).2.1).map
        DE.MRec.status = ["downloaded"] ∧
      (DE.run dlTiny [uTiny]
        ⟨[], [], (DE.run dlTiny [uTiny] (DE.initDE emptyDisk)).1.disk⟩).2.2 = [uTiny] := by
  refine ⟨?_, ?_, ?_⟩ <;> decide

/-- C10: in `DownloadOrchestrator.download_pdfs`, two distinct URLs whose
paths share the same (non-empty, `.pdf`-suffixed) last segment derive the
same output filename; after the first URL's payload is written, the
second URL is recorded as `already_exists` and is never handed to the
Downloader, even though its own content was never fetched. -/
theorem C10_filename_collision (dl : String → DlResult) (u1 u2 : String) (b : List Nat)
    (s : DO.OState) (_hne : u1 ≠ u2)
    (hsame : basenameOf (pathOf u2) = basenameOf (pathOf u1))
    (hnem : ¬(basenameOf (pathOf u1) = ""))
    (hpdf : strFinishes (basenameOf (pathOf u1)) ".pdf" = true)
    (hd1 : s.disk (DO.pathFor 1 u1) = none)
    (hdl : dl u1 = DlResult.payload b) :
    (DO.download_pdfs dl [u1, u2] s).2.1 =
      [DO.OMRec.ok ⟨u1, basenameOf (pathOf u1), "downloaded", some b.length,
        DO.pathFor 1 u1⟩,
       DO.OMRec.ok ⟨u2, basenameOf (pathOf u1), "already_exists", none,
        DO.pathFor 1 u1⟩] ∧
      (DO.download_pdfs dl [u1, u2] s).2.2 = [u1] := by
  have hfn1 : DO.filenameFor 1 u1 = basenameOf (pathOf u1) := by
    simp [DO.filenameFor, hnem, hpdf]
  have hfn2 : DO.filenameFor 2 u2 = basenameOf (pathOf u1) := by
    simp [DO.filenameFor, hsame, hnem, hpdf]
  have hpath : DO.pathFor 2 u2 = DO.pathFor 1 u1 := by
    unfold DO.pathFor
    rw [hfn1, hfn2]
  simp only [DO.download_pdfs, DO.runFrom, DO.step, hd1, hdl, hpath, hfn1, hfn2, writeDisk]
  simp

/-- C10 witness: two concrete distinct URLs sharing the last segment
`doc.pdf`; the second yields an `already_exists` record and only the
first reaches the Downloader. -/
theorem C10_filename_collision_witness :
    uDocA ≠ uDocB ∧
      (DO.download_pdfs dlTiny [uDocA, uDocB] (DO.initDO emptyDisk)).2.1 =
        [DO.OMRec.ok ⟨uDocA, basenameOf (pathOf uDocA), "downloaded", some 5,
          DO.pathFor 1 uDocA⟩,
         DO.OMRec.ok ⟨uDocB, basenameOf (pathOf uDocA), "already_exists", none,
          DO.pathFor 1 uDocA⟩] ∧
      (DO.download_pdfs dlTiny [uDocA, uDocB] (DO.initDO emptyDisk)).2.2 = [uDocA] := by
  have h := C10_filename_collision dlTiny uDocA uDocB [37, 80, 68, 70, 1]
    (DO.initDO emptyDisk) (by decide) (by decide) (by decide) (by decide) rfl rfl
  exact ⟨by decide, h.1, h.2⟩

/-- C9 (amended): `load_discovery_state` returns the empty list when the
state file is missing (`FileNotFoundError` is caught), and returns the
stored URLs for a well-formed file; but a corrupt file makes `json.load`
raise, and that exception propagates — it is not converted to the empty
state. -/
theorem C9_state_load_fallback :
    load_discovery_state StateFile.missing = Except.ok [] ∧
      load_discovery_state StateFile.corrupt = Except.error "json.JSONDecodeError" ∧
      ∀ pdfs : List String, load_discovery_state (StateFile.valid pdfs) = Except.ok pdfs :=
  ⟨rfl, rfl, fun _ => rfl⟩

/-- C9 counterexample: on a corrupt state file the loader does not return
the empty state — it propagates a JSON decoding error, contradicting the
claim that missing-or-corrupt state yields the empty state instead of an
exception. -/
theorem C9_corrupt_counterexample :
    load_discovery_state StateFile.corrupt = Except.error "json.JSONDecodeError" ∧
      ¬(load_discovery_state StateFile.corrupt = Except.ok []) :=
  ⟨rfl, fun h => Except.noConfusion h⟩

/-! ## Helper lemmas: SpiderTool crawl -/

theorem crawl_page_skip (fetch : String → Option String) (hrefsOf : String → List String)
    (textOf : String → String) (u : String) (d : Nat) (s : SpiderState)
    (hc : d > s.max_depth ∨ u ∈ s.visited) :
    crawl_page fetch hrefsOf textOf u d s = (s, SOutcome.skipped, []) := by
  simp [crawl_page, hc]

theorem crawl_page_mdep (fetch : String → Option String) (hrefsOf : String → List String)
    (textOf : String → String) (u : String) (d : Nat) (s : SpiderState) :
    (crawl_page fetch hrefsOf textOf u d s).1.max_depth = s.max_depth := by
  by_cases hc : d > s.max_depth ∨ u ∈ s.visited
  · rw [crawl_page_skip fetch hrefsOf textOf u d s hc]
  · cases hf : fetch u with
    | none => simp [crawl_page, hc, hf]
    | some html =>
      simp only [crawl_page, hc, if_false, hf]
      split <;> rfl

theorem crawl_page_visited_super (fetch : String → Option String)
    (hrefsOf : String → List String) (textOf : String → String) (u : String) (d : Nat)
    (s : SpiderState) (v : String) (hv : v ∈ s.visited) :
    v ∈ (crawl_page fetch hrefsOf textOf u d s).1.visited := by
  by_cases hc : d > s.max_depth ∨ u ∈ s.visited
  · rw [crawl_page_skip fetch hrefsOf textOf u d s hc]
    exact hv
  · cases hf : fetch u with
    | none => simp [crawl_page, hc, hf, List.mem_append, hv]
    | some html =>
      simp only [crawl_page, hc, if_false, hf]
      split <;> simp [List.mem_append, hv]

theorem crawl_page_log_spec (fetch : String → Option String)
    (hrefsOf : String → List String) (textOf : String → String) (u : String) (d : Nat)
    (s : SpiderState) (v : String) (hv : v ∈ (crawl_page fetch hrefsOf textOf u d s).2.2) :
    v = u ∧ v ∉ s.visited ∧ v ∈ (crawl_page fetch hrefsOf textOf u d s).1.visited := by
  by_cases hc : d > s.max_depth ∨ u ∈ s.visited
  · rw [crawl_page_skip fetch hrefsOf textOf u d s hc] at hv
    simp at hv
  · have h2 : u ∉ s.visited := fun h => hc (Or.inr h)
    cases hf : fetch u with
    | none =>
      simp only [crawl_page, hc, if_false, hf] at hv ⊢
      simp at hv
      subst hv
      simp [h2]
    | some html =>
      simp only [crawl_page, hc, if_false, hf] at hv ⊢
      rcases hsp : strHas html "bm-verify" || strHas (strLower html) "akamai" with _ | _ <;>
        simp [hsp] at hv ⊢ <;> subst hv <;> simp [h2]

theorem crawl_page_pdfs_cases (fetch : String → Option String)
    (hrefsOf : String → List String) (textOf : String → String) (u : String) (d : Nat)
    (s : SpiderState) :
    (crawl_page fetch hrefsOf textOf u d s).1.discovered_pdfs = s.discovered_pdfs ∨
      (∃ pdfs : List SLink,
        (crawl_page fetch hrefsOf textOf u d s).1.discovered_pdfs =
          addPdfs u d pdfs s.discovered_pdfs ∧ d ≤ s.max_depth) := by
  by_cases hc : d > s.max_depth ∨ u ∈ s.visited
  · rw [crawl_page_skip fetch hrefsOf textOf u d s hc]
    exact Or.inl rfl
  · have h1 : d ≤ s.max_depth := Nat.le_of_not_lt (fun h => hc (Or.inl h))
    cases hf : fetch u with
    | none =>
      left
      simp [crawl_page, hc, hf]
    | some html =>
      simp only [crawl_page, hc, if_false, hf]
      split
      · exact Or.inl rfl
      · exact Or.inr ⟨(spiderExtract textOf u (hrefsOf html)).1, rfl, h1⟩

theorem addPdfs_super (sp : String) (d : Nat) :
    ∀ (ls : List SLink) (acc : List SPdf) (r : SPdf), r ∈ acc → r ∈ addPdfs sp d ls acc
  | [], _, _, hr => hr
  | l :: ls, acc, r, hr => by
    unfold addPdfs
    split
    · exact addPdfs_super sp d ls acc r hr
    · exact addPdfs_super sp d ls _ r (List.mem_append_left _ hr)

theorem addPdfs_mem_or (sp : String) (d : Nat) :
    ∀ (ls : List SLink) (acc : List SPdf) (r : SPdf),
      r ∈ addPdfs sp d ls acc → r ∈ acc ∨ r.depth = d
  | [], _, _, hr => Or.inl hr
  | l :: ls, acc, r, hr => by
    unfold addPdfs at hr
    split at hr
    · exact addPdfs_mem_or sp d ls acc r hr
    · rcases addPdfs_mem_or sp d ls _ r hr with h | h
      · rcases List.mem_append.1 h with h | h
        · exact Or.inl h
        · rw [List.mem_singleton] at h
          subst h
          exact Or.inr rfl
      · exact Or.inr h

theorem addPdfs_nodup (sp : String) (d : Nat) :
    ∀ (ls : List SLink) (acc : List SPdf),
      (acc.map SPdf.url).Nodup → ((addPdfs sp d ls acc).map SPdf.url).Nodup
  | [], _, h => h
  | l :: ls, acc, h => by
    unfold addPdfs
    split
    · exact addPdfs_nodup sp d ls acc h
    · refine addPdfs_nodup sp d ls _ ?_
      rw [List.map_append]
      simp only [List.map_cons, List.map_nil]
      rw [List.nodup_append]
      refine ⟨h, List.nodup_singleton _, ?_⟩
      intro x hx
      simp only [List.mem_singleton]
      intro hxl
      subst hxl
      exact absurd hx (by assumption)

theorem crawlRun_mdep (fetch : String → Option String) (hrefsOf : String → List String)
    (textOf : String → String) :
    ∀ (reqs : List (String × Nat)) (s : SpiderState),
      (crawlRun fetch hrefsOf textOf reqs s).1.max_depth = s.max_depth
  | [], _ => rfl
  | (u, d) :: rest, s => by
    unfold crawlRun
    rw [crawlRun_mdep fetch hrefsOf textOf rest _, crawl_page_mdep]

theorem crawlRun_visited_super (fetch : String → Option String)
    (hrefsOf : String → List String) (textOf : String → String) :
    ∀ (reqs : List (String × Nat)) (s : SpiderState) (v : String), v ∈ s.visited →
      v ∈ (crawlRun fetch hrefsOf textOf reqs s).1.visited
  | [], _, _, hv => hv
  | (u, d) :: rest, s, v, hv =>
    crawlRun_visited_super fetch hrefsOf textOf rest _ v
      (crawl_page_visited_super fetch hrefsOf textOf u d s v hv)

theorem crawlRun_no_refetch (fetch : String → Option String)
    (hrefsOf : String → List String) (textOf : String → String) :
    ∀ (reqs : List (String × Nat)) (s : SpiderState) (v : String), v ∈ s.visited →
      v ∉ (crawlRun fetch hrefsOf textOf reqs s).2
  | [], _, _, _ => List.not_mem_nil _
  | (u, d) :: rest, s, v, hv => by
    unfold crawlRun
    rw [List.mem_append]
    rintro (h | h)
    · exact (crawl_page_log_spec fetch hrefsOf textOf u d s v h).2.1 hv
    · exact crawlRun_no_refetch fetch hrefsOf textOf rest _ v
        (crawl_page_visited_super fetch hrefsOf textOf u d s v hv) h

theorem crawlRun_log_nodup (fetch : String → Option String)
    (hrefsOf : String → List String) (textOf : String → String) :
    ∀ (reqs : List (String × Nat)) (s : SpiderState),
      (crawlRun fetch hrefsOf textOf reqs s).2.Nodup
  | [], _ => List.nodup_nil
  | (u, d) :: rest, s => by
    unfold crawlRun
    rw [List.nodup_append]
    refine ⟨?_, crawlRun_log_nodup fetch hrefsOf textOf rest _, ?_⟩
    · by_cases hc : d > s.max_depth ∨ u ∈ s.visited
      · rw [crawl_page_skip fetch hrefsOf textOf u d s hc]
        exact List.nodup_nil
      · have hsub : ∀ v ∈ (crawl_page fetch hrefsOf textOf u d s).2.2, v = u := fun v hv =>
          (crawl_page_log_spec fetch hrefsOf textOf u d s v hv).1
        rcases hl : (crawl_page fetch hrefsOf textOf u d s).2.2 with _ | ⟨a, tl⟩
        · exact List.nodup_nil
        · rcases tl with _ | ⟨b, tl2⟩
          · exact List.nodup_singleton a
          · exfalso
            have hlen : (crawl_page fetch hrefsOf textOf u d s).2.2.length ≤ 1 := by
              by_cases hc2 : d > s.max_depth ∨ u ∈ s.visited
              · rw [crawl_page_skip fetch hrefsOf textOf u d s hc2]
                exact Nat.zero_le 1
              · cases hf : fetch u with
                | none => simp [crawl_page, hc2, hf]
                | some html =>
                  simp only [crawl_page, hc2, if_false, hf]
                  split <;> simp
            rw [hl] at hlen
            simp at hlen
    · intro v hv
      have hspec := crawl_page_log_spec fetch hrefsOf textOf u d s v hv
      exact crawlRun_no_refetch fetch hrefsOf textOf rest _ v hspec.2.2

theorem crawlRun_pdfs_super (fetch : String → Option String)
    (hrefsOf : String → List String) (textOf : String → String) :
    ∀ (reqs : List (String × Nat)) (s : SpiderState) (r : SPdf), r ∈ s.discovered_pdfs →
      r ∈ (crawlRun fetch hrefsOf textOf reqs s).1.discovered_pdfs
  | [], _, _, hr => hr
  | (u, d) :: rest, s, r, hr => by
    refine crawlRun_pdfs_super fetch hrefsOf textOf rest _ r ?_
    rcases crawl_page_pdfs_cases fetch hrefsOf textOf u d s with h | ⟨pdfs, h, _⟩
    · rw [h]
      exact hr
    · rw [h]
      exact addPdfs_super u d pdfs _ r hr

theorem crawlRun_pdfs_depth (fetch : String → Option String)
    (hrefsOf : String → List String) (textOf : String → String) :
    ∀ (reqs : List (String × Nat)) (s : SpiderState),
      (∀ r ∈ s.discovered_pdfs, r.depth ≤ s.max_depth) →
      ∀ r ∈ (crawlRun fetch hrefsOf textOf reqs s).1.discovered_pdfs,
        r.depth ≤ s.max_depth
  | [], _, hinv, r, hr => hinv r hr
  | (u, d) :: rest, s, hinv, r, hr => by
    have hmd := crawl_page_mdep fetch hrefsOf textOf u d s
    have hnext : ∀ r ∈ (crawl_page fetch hrefsOf textOf u d s).1.discovered_pdfs,
        r.depth ≤ (crawl_page fetch hrefsOf textOf u d s).1.max_depth := by
      rw [hmd]
      rcases crawl_page_pdfs_cases fetch hrefsOf textOf u d s with h | ⟨pdfs, h, hd⟩
      · rw [h]
        exact hinv
      · rw [h]
        intro r hr
        rcases addPdfs_mem_or u d pdfs _ r hr with h2 | h2
        · exact hinv r h2
        · rw [h2]
          exact hd
    have := crawlRun_pdfs_depth fetch hrefsOf textOf rest _ hnext r hr
    rwa [hmd] at this

theorem crawlRun_pdfs_nodup (fetch : String → Option String)
    (hrefsOf : String → List String) (textOf : String → String) :
    ∀ (reqs : List (String × Nat)) (s : SpiderState),
      (s.discovered_pdfs.map SPdf.url).Nodup →
      ((crawlRun fetch hrefsOf textOf reqs s).1.discovered_pdfs.map SPdf.url).Nodup
  | [], _, h => h
  | (u, d) :: rest, s, h => by
    refine crawlRun_pdfs_nodup fetch hrefsOf textOf rest _ ?_
    rcases crawl_page_pdfs_cases fetch hrefsOf textOf u d s with h2 | ⟨pdfs, h2, _⟩
    · rw [h2]
      exact h
    · rw [h2]
      exact addPdfs_nodup u d pdfs _ h

/-! ## Helper lemmas: DiscoveryTool crawl -/

theorem Disc.dfp_skip (fetch : String → Option String) (hrefsOf : String → List String)
    (textOf : String → String) (contextOf : String → String → String) (u : String)
    (d : Nat) (s : DiscState) (hc : d > s.max_depth ∨ u ∈ s.visited) :
    Disc.discover_from_page fetch hrefsOf textOf contextOf u d s =
      (s, Disc.DStatus.skipped, []) := by
  simp [Disc.discover_from_page, hc]

theorem Disc.dfp_mdep (fetch : String → Option String) (hrefsOf : String → List String)
    (textOf : String → String) (contextOf : String → String → String) (u : String)
    (d : Nat) (s : DiscState) :
    (Disc.discover_from_page fetch hrefsOf textOf contextOf u d s).1.max_depth =
      s.max_depth := by
  by_cases hc : d > s.max_depth ∨ u ∈ s.visited
  · rw [Disc.dfp_skip fetch hrefsOf textOf contextOf u d s hc]
  · cases hf : fetch u with
    | none => simp [Disc.discover_from_page, hc, hf]
    | some html =>
      simp only [Disc.discover_from_page, hc, if_false, hf]
      split <;> rfl

theorem Disc.dfp_visited_super (fetch : String → Option String)
    (hrefsOf : String → List String) (textOf : String → String)
    (contextOf : String → String → String) (u : String) (d : Nat) (s : DiscState)
    (v : String) (hv : v ∈ s.visited) :
    v ∈ (Disc.discover_from_page fetch hrefsOf textOf contextOf u d s).1.visited := by
  by_cases hc : d > s.max_depth ∨ u ∈ s.visited
  · rw [Disc.dfp_skip fetch hrefsOf textOf contextOf u d s hc]
    exact hv
  · cases hf : fetch u with
    | none => simp [Disc.discover_from_page, hc, hf, List.mem_append, hv]
    | some html =>
      simp only [Disc.discover_from_page, hc, if_false, hf]
      split <;> simp [List.mem_append, hv]

theorem Disc.dfp_log_spec (fetch : String → Option String)
    (hrefsOf : String → List String) (textOf : String → String)
    (contextOf : String → String → String) (u : String) (d : Nat) (s : DiscState)
    (v : String)
    (hv : v ∈ (Disc.discover_from_page fetch hrefsOf textOf contextOf u d s).2.2) :
    v = u ∧ v ∉ s.visited ∧
      v ∈ (Disc.discover_from_page fetch hrefsOf textOf contextOf u d s).1.visited := by
  by_cases hc : d > s.max_depth ∨ u ∈ s.visited
  · rw [Disc.dfp_skip fetch hrefsOf textOf contextOf u d s hc] at hv
    simp at hv
  · have h2 : u ∉ s.visited := fun h => hc (Or.inr h)
    cases hf : fetch u with
    | none =>
      simp only [Disc.discover_from_page, hc, if_false, hf] at hv ⊢
      simp at hv
      subst hv
      simp [h2]
    | some html =>
      simp only [Disc.discover_from_page, hc, if_false, hf] at hv ⊢
      rcases hsp : strHas html "bm-verify" || strHas (strLower html) "akamai" with _ | _ <;>
        simp [hsp] at hv ⊢ <;> subst hv <;> simp [h2]

theorem Disc.dfp_log_len (fetch : String → Option String)
    (hrefsOf : String → List String) (textOf : String → String)
    (contextOf : String → String → String) (u : String) (d : Nat) (s : DiscState) :
    (Disc.discover_from_page fetch hrefsOf textOf contextOf u d s).2.2.length ≤ 1 := by
  by_cases hc : d > s.max_depth ∨ u ∈ s.visited
  · rw [Disc.dfp_skip fetch hrefsOf textOf contextOf u d s hc]
    exact Nat.zero_le 1
  · cases hf : fetch u with
    | none => simp [Disc.discover_from_page, hc, hf]
    | some html =>
      simp only [Disc.discover_from_page, hc, if_false, hf]
      split <;> simp

theorem Disc.dfp_pdfs_cases (fetch : String → Option String)
    (hrefsOf : String → List String) (textOf : String → String)
    (contextOf : String → String → String) (u : String) (d : Nat) (s : DiscState) :
    (Disc.discover_from_page fetch hrefsOf textOf contextOf u d s).1.discovered_pdfs =
        s.discovered_pdfs ∨
      (∃ ps : List Disc.DLink,
        (Disc.discover_from_page fetch hrefsOf textOf contextOf u d s).1.discovered_pdfs =
          s.discovered_pdfs ++
            ps.map (fun p => ⟨p.url, p.text, p.is_pdf, p.domain, u, d⟩) ∧
        d ≤ s.max_depth) := by
  by_cases hc : d > s.max_depth ∨ u ∈ s.visited
  · rw [Disc.dfp_skip fetch hrefsOf textOf contextOf u d s hc]
    exact Or.inl rfl
  · have h1 : d ≤ s.max_depth := Nat.le_of_not_lt (fun h => hc (Or.inl h))
    cases hf : fetch u with
    | none =>
      left
      simp [Disc.discover_from_page, hc, hf]
    | some html =>
      simp only [Disc.discover_from_page, hc, if_false, hf]
      split
      · exact Or.inl rfl
      · exact Or.inr
          ⟨(Disc.extract_links textOf u (hrefsOf html)).filter (fun l => l.is_pdf),
            rfl, h1⟩

theorem Disc.dfp_navs_cases (fetch : String → Option String)
    (hrefsOf : String → List String) (textOf : String → String)
    (contextOf : String → String → String) (u : String) (d : Nat) (s : DiscState) :
    (Disc.discover_from_page fetch hrefsOf textOf contextOf u d s).1.discovered_links =
        s.discovered_links ∨
      (∃ (html : String) (ns : List Disc.DLink),
        (Disc.discover_from_page fetch hrefsOf textOf contextOf u d s).1.discovered_links =
          Disc.addNavs contextOf html u d ns s.discovered_links ∧ d ≤ s.max_depth) := by
  by_cases hc : d > s.max_depth ∨ u ∈ s.visited
  · rw [Disc.dfp_skip fetch hrefsOf textOf contextOf u d s hc]
    exact Or.inl rfl
  · have h1 : d ≤ s.max_depth := Nat.le_of_not_lt (fun h => hc (Or.inl h))
    cases hf : fetch u with
    | none =>
      left
      simp [Disc.discover_from_page, hc, hf]
    | some html =>
      simp only [Disc.discover_from_page, hc, if_false, hf]
      split
      · exact Or.inl rfl
      · exact Or.inr
          ⟨html, (Disc.extract_links textOf u (hrefsOf html)).filter
            (fun l => !l.is_pdf && strFinishes l.domain "justice.gov"), rfl, h1⟩

theorem Disc.addNavs_mem_or (contextOf : String → String → String) (html sp : String)
    (d : Nat) :
    ∀ (ls : List Disc.DLink) (acc : List Disc.DNav) (r : Disc.DNav),
      r ∈ Disc.addNavs contextOf html sp d ls acc → r ∈ acc ∨ r.depth = d
  | [], _, _, hr => Or.inl hr
  | l :: ls, acc, r, hr => by
    unfold Disc.addNavs at hr
    split at hr
    · exact Disc.addNavs_mem_or contextOf html sp d ls acc r hr
    · rcases Disc.addNavs_mem_or contextOf html sp d ls _ r hr with h | h
      · rcases List.mem_append.1 h with h | h
        · exact Or.inl h
        · rw [List.mem_singleton] at h
          subst h
          exact Or.inr rfl
      · exact Or.inr h

theorem Disc.addNavs_nodup (contextOf : String → String → String) (html sp : String)
    (d : Nat) :
    ∀ (ls : List Disc.DLink) (acc : List Disc.DNav),
      (acc.map Disc.DNav.url).Nodup →
      ((Disc.addNavs contextOf html sp d ls acc).map Disc.DNav.url).Nodup
  | [], _, h => h
  | l :: ls, acc, h => by
    unfold Disc.addNavs
    split
    · exact Disc.addNavs_nodup contextOf html sp d ls acc h
    · refine Disc.addNavs_nodup contextOf html sp d ls _ ?_
      rw [List.map_append]
      simp only [List.map_cons, List.map_nil]
      rw [List.nodup_append]
      refine ⟨h, List.nodup_singleton _, ?_⟩
      intro x hx
      simp only [List.mem_singleton]
      intro hxl
      subst hxl
      exact absurd hx (by assumption)

theorem Disc.discRun_mdep (fetch : String → Option String)
    (hrefsOf : String → List String) (textOf : String → String)
    (contextOf : String → String → String) :
    ∀ (reqs : List (String × Nat)) (s : DiscState),
      (Disc.discRun fetch hrefsOf textOf contextOf reqs s).1.max_depth = s.max_depth
  | [], _ => rfl
  | (u, d) :: rest, s => by
    unfold Disc.discRun
    rw [Disc.discRun_mdep fetch hrefsOf textOf contextOf rest _, Disc.dfp_mdep]

theorem Disc.discRun_visited_super (fetch : String → Option String)
    (hrefsOf : String → List String) (textOf : String → String)
    (contextOf : String → String → String) :
    ∀ (reqs : List (String × Nat)) (s : DiscState) (v : String), v ∈ s.visited →
      v ∈ (Disc.discRun fetch hrefsOf textOf contextOf reqs s).1.visited
  | [], _, _, hv => hv
  | (u, d) :: rest, s, v, hv =>
    Disc.discRun_visited_super fetch hrefsOf textOf contextOf rest _ v
      (Disc.dfp_visited_super fetch hrefsOf textOf contextOf u d s v hv)

theorem Disc.discRun_no_refetch (fetch : String → Option String)
    (hrefsOf : String → List String) (textOf : String → String)
    (contextOf : String → String → String) :
    ∀ (reqs : List (String × Nat)) (s : DiscState) (v : String), v ∈ s.visited →
      v ∉ (Disc.discRun fetch hrefsOf textOf contextOf reqs s).2
  | [], _, _, _ => List.not_mem_nil _
  | (u, d) :: rest, s, v, hv => by
    unfold Disc.discRun
    rw [List.mem_append]
    rintro (h | h)
    · exact (Disc.dfp_log_spec fetch hrefsOf textOf contextOf u d s v h).2.1 hv
    · exact Disc.discRun_no_refetch fetch hrefsOf textOf contextOf rest _ v
        (Disc.dfp_visited_super fetch hrefsOf textOf contextOf u d s v hv) h

theorem Disc.discRun_log_nodup (fetch : String → Option String)
    (hrefsOf : String → List String) (textOf : String → String)
    (contextOf : String → String → String) :
    ∀ (reqs : List (String × Nat)) (s : DiscState),
      (Disc.discRun fetch hrefsOf textOf contextOf reqs s).2.Nodup
  | [], _ => List.nodup_nil
  | (u, d) :: rest, s => by
    unfold Disc.discRun
    rw [List.nodup_append]
    refine ⟨?_, Disc.discRun_log_nodup fetch hrefsOf textOf contextOf rest _, ?_⟩
    · rcases hl : (Disc.discover_from_page fetch hrefsOf textOf contextOf u d s).2.2 with
        _ | ⟨a, tl⟩
      · exact List.nodup_nil
      · rcases tl with _ | ⟨b, tl2⟩
        · exact List.nodup_singleton a
        · exfalso
          have hlen := Disc.dfp_log_len fetch hrefsOf textOf contextOf u d s
          rw [hl] at hlen
          simp at hlen
    · intro v hv
      have hspec := Disc.dfp_log_spec fetch hrefsOf textOf contextOf u d s v hv
      exact Disc.discRun_no_refetch fetch hrefsOf textOf contextOf rest _ v hspec.2.2

theorem Disc.discRun_pdfs_depth (fetch : String → Option String)
    (hrefsOf : String → List String) (textOf : String → String)
    (contextOf : String → String → String) :
    ∀ (reqs : List (String × Nat)) (s : DiscState),
      (∀ r ∈ s.discovered_pdfs, r.depth ≤ s.max_depth) →
      ∀ r ∈ (Disc.discRun fetch hrefsOf textOf contextOf reqs s).1.discovered_pdfs,
        r.depth ≤ s.max_depth
  | [], _, hinv, r, hr => hinv r hr
  | (u, d) :: rest, s, hinv, r, hr => by
    have hmd := Disc.dfp_mdep fetch hrefsOf textOf contextOf u d s
    have hnext : ∀ r ∈
        (Disc.discover_from_page fetch hrefsOf textOf contextOf u d s).1.discovered_pdfs,
        r.depth ≤ (Disc.discover_from_page fetch hrefsOf textOf contextOf u d s).1.max_depth := by
      rw [hmd]
      rcases Disc.dfp_pdfs_cases fetch hrefsOf textOf contextOf u d s with h | ⟨ps, h, hd⟩
      · rw [h]
        exact hinv
      · rw [h]
        intro r hr
        rcases List.mem_append.1 hr with h2 | h2
        · exact hinv r h2
        · rcases List.mem_map.1 h2 with ⟨p, _, hp⟩
          rw [← hp]
          exact hd
    have := Disc.discRun_pdfs_depth fetch hrefsOf textOf contextOf rest _ hnext r hr
    rwa [hmd] at this

theorem Disc.discRun_navs_depth (fetch : String → Option String)
    (hrefsOf : String → List String) (textOf : String → String)
    (contextOf : String → String → String) :
    ∀ (reqs : List (String × Nat)) (s : DiscState),
      (∀ r ∈ s.discovered_links, r.depth ≤ s.max_depth) →
      ∀ r ∈ (Disc.discRun fetch hrefsOf textOf contextOf reqs s).1.discovered_links,
        r.depth ≤ s.max_depth
  | [], _, hinv, r, hr => hinv r hr
  | (u, d) :: rest, s, hinv, r, hr => by
    have hmd := Disc.dfp_mdep fetch hrefsOf textOf contextOf u d s
    have hnext : ∀ r ∈
        (Disc.discover_from_page fetch hrefsOf textOf contextOf u d s).1.discovered_links,
        r.depth ≤ (Disc.discover_from_page fetch hrefsOf textOf contextOf u d s).1.max_depth := by
      rw [hmd]
      rcases Disc.dfp_navs_cases fetch hrefsOf textOf contextOf u d s with h | ⟨html, ns, h, hd⟩
      · rw [h]
        exact hinv
      · rw [h]
        intro r hr
        rcases Disc.addNavs_mem_or contextOf html u d ns _ r hr with h2 | h2
        · exact hinv r h2
        · rw [h2]
          exact hd
    have := Disc.discRun_navs_depth fetch hrefsOf textOf contextOf rest _ hnext r hr
    rwa [hmd] at this

theorem Disc.discRun_navs_nodup (fetch : String → Option String)
    (hrefsOf : String → List String) (textOf : String → String)
    (contextOf : String → String → String) :
    ∀ (reqs : List (String × Nat)) (s : DiscState),
      (s.discovered_links.map Disc.DNav.url).Nodup →
      ((Disc.discRun fetch hrefsOf textOf contextOf reqs s).1.discovered_links.map
        Disc.DNav.url).Nodup
  | [], _, h => h
  | (u, d) :: rest, s, h => by
    refine Disc.discRun_navs_nodup fetch hrefsOf textOf contextOf rest _ ?_
    rcases Disc.dfp_navs_cases fetch hrefsOf textOf contextOf u d s with h2 | ⟨html, ns, h2, _⟩
    · rw [h2]
      exact h
    · rw [h2]
      exact Disc.addNavs_nodup contextOf html u d ns _ h

theorem crawl_page_fetches (fetch : String → Option String)
    (hrefsOf : String → List String) (textOf : String → String) (u : String)
    (s : SpiderState) (h2 : u ∉ s.visited) :
    (crawl_page fetch hrefsOf textOf u s.max_depth s).2.2 = [u] := by
  have hc : ¬(s.max_depth > s.max_depth ∨ u ∈ s.visited) := by
    rintro (h | h)
    · exact absurd h (lt_irrefl _)
    · exact h2 h
  cases hf : fetch u with
  | none => simp [crawl_page, hc, hf, h2]
  | some html =>
    simp only [crawl_page, hc, if_false, hf]
    split <;> rfl

theorem Disc.dfp_fetches (fetch : String → Option String)
    (hrefsOf : String → List String) (textOf : String → String)
    (contextOf : String → String → String) (u : String) (s : DiscState)
    (h2 : u ∉ s.visited) :
    (Disc.discover_from_page fetch hrefsOf textOf contextOf u s.max_depth s).2.2 = [u] := by
  have hc : ¬(s.max_depth > s.max_depth ∨ u ∈ s.visited) := by
    rintro (h | h)
    · exact absurd h (lt_irrefl _)
    · exact h2 h
  cases hf : fetch u with
  | none => simp [Disc.discover_from_page, hc, hf, h2]
  | some html =>
    simp only [Disc.discover_from_page, hc, if_false, hf]
    split <;> rfl

/-- C4: depth bound. Every PDF recorded by a `SpiderTool` session, and
every PDF and navigation `DiscoveredLink` recorded by a `DiscoveryTool`
session started from a fresh state with bound `maxD`, carries
`depth ≤ maxD`; a crawl call at depth strictly above `max_depth` is a
terminal skip that fetches nothing; and `max_depth` is inclusive — a call
at exactly `max_depth` on an unvisited URL still passes the URL to the
page fetcher. -/
theorem C4_depth_bound (fetch : String → Option String) (hrefsOf : String → List String)
    (textOf : String → String) (contextOf : String → String → String) (maxD : Nat)
    (reqs : List (String × Nat)) :
    (∀ r ∈ (crawlRun fetch hrefsOf textOf reqs (initSpider maxD)).1.discovered_pdfs,
        r.depth ≤ maxD) ∧
      (∀ r ∈ (Disc.discRun fetch hrefsOf textOf contextOf reqs
          (Disc.initDisc maxD)).1.discovered_pdfs, r.depth ≤ maxD) ∧
      (∀ r ∈ (Disc.discRun fetch hrefsOf textOf contextOf reqs
          (Disc.initDisc maxD)).1.discovered_links, r.depth ≤ maxD) ∧
      (∀ (u : String) (d : Nat) (s : SpiderState), s.max_depth < d →
        crawl_page fetch hrefsOf textOf u d s = (s, SOutcome.skipped, [])) ∧
      (∀ (u : String) (d : Nat) (sd : Disc.DiscState), sd.max_depth < d →
        Disc.discover_from_page fetch hrefsOf textOf contextOf u d sd =
          (sd, Disc.DStatus.skipped, [])) ∧
      (∀ (u : String) (s : SpiderState), u ∉ s.visited →
        (crawl_page fetch hrefsOf textOf u s.max_depth s).2.2 = [u]) ∧
      (∀ (u : String) (sd : Disc.DiscState), u ∉ sd.visited →
        (Disc.discover_from_page fetch hrefsOf textOf contextOf u sd.max_depth sd).2.2 =
          [u]) := by
  refine ⟨?_, ?_, ?_, ?_, ?_, ?_, ?_⟩
  · exact crawlRun_pdfs_depth fetch hrefsOf textOf reqs (initSpider maxD)
      (fun r hr => absurd hr (List.not_mem_nil r))
  · exact Disc.discRun_pdfs_depth fetch hrefsOf textOf contextOf reqs (Disc.initDisc maxD)
      (fun r hr => absurd hr (List.not_mem_nil r))
  · exact Disc.discRun_navs_depth fetch hrefsOf textOf contextOf reqs (Disc.initDisc maxD)
      (fun r hr => absurd hr (List.not_mem_nil r))
  · exact fun u d s hd => crawl_page_skip fetch hrefsOf textOf u d s (Or.inl hd)
  · exact fun u d sd hd => Disc.dfp_skip fetch hrefsOf textOf contextOf u d sd (Or.inl hd)
  · exact fun u s h2 => crawl_page_fetches fetch hrefsOf textOf u s h2
  · exact fun u sd h2 => Disc.dfp_fetches fetch hrefsOf textOf contextOf u sd h2

/-- C4 witness: a crawl call at depth 5 against a bound of 2 is a
terminal skip with no fetch, and a call at exactly the bound on a fresh
state still fetches. -/
theorem C4_depth_bound_witness :
    (initSpider 2).max_depth < 5 ∧
      crawl_page fetchPage noHrefs noText "https://www.justice.gov/a" 5 (initSpider 2) =
        (initSpider 2, SOutcome.skipped, []) ∧
      "https://www.justice.gov/a" ∉ (initSpider 2).visited ∧
      (crawl_page fetchPage noHrefs noText "https://www.justice.gov/a"
        (initSpider 2).max_depth (initSpider 2)).2.2 = ["https://www.justice.gov/a"] :=
  ⟨by decide,
    (C4_depth_bound fetchPage noHrefs noText noContext 2 []).2.2.2.1
      "https://www.justice.gov/a" 5 (initSpider 2) (by decide),
    by decide,
    (C4_depth_bound fetchPage noHrefs noText noContext 2 []).2.2.2.2.2.1
      "https://www.justice.gov/a" (initSpider 2) (by decide)⟩

/-- C5: no re-fetch. In both crawlers, a URL already in the visited set
when a session (any request sequence) starts is never passed to the page
fetcher, and within one session no URL is fetched twice (the fetch log
has no duplicates) — the visited-set insertion precedes the fetch, so
even a URL whose fetch fails is never retried. -/
theorem C5_no_refetch (fetch : String → Option String) (hrefsOf : String → List String)
    (textOf : String → String) (contextOf : String → String → String)
    (reqs : List (String × Nat)) (s : SpiderState) (sd : Disc.DiscState) :
    ((∀ v ∈ s.visited, v ∉ (crawlRun fetch hrefsOf textOf reqs s).2) ∧
      (crawlRun fetch hrefsOf textOf reqs s).2.Nodup) ∧
      ((∀ v ∈ sd.visited, v ∉ (Disc.discRun fetch hrefsOf textOf contextOf reqs sd).2) ∧
        (Disc.discRun fetch hrefsOf textOf contextOf reqs sd).2.Nodup) :=
  ⟨⟨fun v hv => crawlRun_no_refetch fetch hrefsOf textOf reqs s v hv,
      crawlRun_log_nodup fetch hrefsOf textOf reqs s⟩,
    ⟨fun v hv => Disc.discRun_no_refetch fetch hrefsOf textOf contextOf reqs sd v hv,
      Disc.discRun_log_nodup fetch hrefsOf textOf contextOf reqs sd⟩⟩

/-- C5 witness: a concrete visited URL is absent from the fetch log of a
session that requests it again. -/
theorem C5_no_refetch_witness :
    "https://www.justice.gov/a" ∈ (["https://www.justice.gov/a"] : List String) ∧
      "https://www.justice.gov/a" ∉
        (crawlRun fetchPage noHrefs noText [("https://www.justice.gov/a", 0)]
          ⟨3, ["https://www.justice.gov/a"], []⟩).2 :=
  ⟨by decide,
    (C5_no_refetch fetchPage noHrefs noText noContext [("https://www.justice.gov/a", 0)]
      ⟨3, ["https://www.justice.gov/a"], []⟩ (Disc.initDisc 3)).1.1
      "https://www.justice.gov/a" (by decide)⟩

/-- C6 (amended): in `SpiderTool`, a PDF link is appended to
`discovered_pdfs` only when its URL is not already present, so recorded
PDF URLs stay pairwise distinct across any crawl sequence and previously
recorded entries (with their first-seen `source_page` and `depth`) are
preserved unchanged; the same first-seen-wins rule protects
`DiscoveryTool.discovered_links`. `DiscoveryTool.discovered_pdfs`,
however, is appended to unconditionally, so its document URLs need not be
distinct (see the counterexample). -/
theorem C6_first_seen_wins (fetch : String → Option String)
    (hrefsOf : String → List String) (textOf : String → String)
    (contextOf : String → String → String) (reqs : List (String × Nat))
    (s : SpiderState) (sd : Disc.DiscState) :
    ((∀ r ∈ s.discovered_pdfs,
        r ∈ (crawlRun fetch hrefsOf textOf reqs s).1.discovered_pdfs) ∧
      ((s.discovered_pdfs.map SPdf.url).Nodup →
        ((crawlRun fetch hrefsOf textOf reqs s).1.discovered_pdfs.map SPdf.url).Nodup)) ∧
      ((sd.discovered_links.map Disc.DNav.url).Nodup →
        ((Disc.discRun fetch hrefsOf textOf contextOf reqs sd).1.discovered_links.map
          Disc.DNav.url).Nodup) :=
  ⟨⟨fun r hr => crawlRun_pdfs_super fetch hrefsOf textOf reqs s r hr,
      fun h => crawlRun_pdfs_nodup fetch hrefsOf textOf reqs s h⟩,
    fun h => Disc.discRun_navs_nodup fetch hrefsOf textOf contextOf reqs sd h⟩

/-- C6 witness: a fresh spider session that sees the same PDF from two
pages records pairwise-distinct PDF URLs. -/
theorem C6_first_seen_wins_witness :
    ((initSpider 3).discovered_pdfs.map SPdf.url).Nodup ∧
      ((crawlRun fetchPage onePdfHref noText
        [("https://www.justice.gov/a", 0), ("https://www.justice.gov/b", 0)]
        (initSpider 3)).1.discovered_pdfs.map SPdf.url).Nodup :=
  ⟨by decide,
    (C6_first_seen_wins fetchPage onePdfHref noText noContext
      [("https://www.justice.gov/a", 0), ("https://www.justice.gov/b", 0)]
      (initSpider 3) (Disc.initDisc 3)).1.2 (by decide)⟩

/-- C6 counterexample: `DiscoveryTool.discover_from_page` appends every
PDF link unconditionally, so crawling two pages that both link the same
PDF records its URL twice — the recorded document URLs are not pairwise
distinct, contradicting the claim for this cited code path. -/
theorem C6_discovery_duplicate_counterexample :
    (Disc.discRun fetchPage onePdfHref noText noContext
        [("https://www.justice.gov/a", 0), ("https://www.justice.gov/b", 0)]
        (Disc.initDisc 3)).1.discovered_pdfs.map Disc.DPdf.url =
      ["https://www.justice.gov/x.pdf", "https://www.justice.gov/x.pdf"] ∧
      ¬((Disc.discRun fetchPage onePdfHref noText noContext
        [("https://www.justice.gov/a", 0), ("https://www.justice.gov/b", 0)]
        (Disc.initDisc 3)).1.discovered_pdfs.map Disc.DPdf.url).Nodup := by
  constructor <;> decide

/-- C7 (amended): `SpiderTool.extract_links_htmlq` rejects hrefs that are
empty, fragment-only or `javascript:` after stripping; resolves a
leading-slash href against the scheme and host of the base URL; then
drops every resolved URL whose host does not end in `justice.gov`
(external links — PDF or not — are discarded, not tagged); among the kept
URLs it tags as PDF exactly those whose full lowercased URL ends in
`.pdf` (so a query string ending in `.pdf` also matches, unlike the
claim's path-based test — see the counterexample), and the rest as
navigation links. The claim's concrete scenario
(`/files/report.PDF` against `https://example.justice.gov/page`) does
hold. -/
theorem C7_link_classification (textOf : String → String) (base href : String) :
    ((pyStrip href = "" ∨ strBegins (pyStrip href) "#" = true ∨
        strBegins (pyStrip href) "javascript:" = true) →
      spiderClassify textOf base href = SClass.dropped) ∧
      (strBegins (pyStrip href) "/" = true →
        resolveHref base (pyStrip href) =
          schemeOf base ++ "://" ++ netlocOf base ++ pyStrip href) ∧
      (∀ l, spiderClassify textOf base href = SClass.pdfLink l →
        strFinishes (strLower l.url) ".pdf" = true ∧
        strFinishes (netlocOf l.url) "justice.gov" = true ∧
        l.url = resolveHref base (pyStrip href)) ∧
      (∀ l, spiderClassify textOf base href = SClass.navLink l →
        strFinishes (strLower l.url) ".pdf" = false ∧
        strFinishes (netlocOf l.url) "justice.gov" = true ∧
        l.url = resolveHref base (pyStrip href)) ∧
      spiderClassify textOf "https://example.justice.gov/page" "/files/report.PDF" =
        SClass.pdfLink ⟨"https://example.justice.gov/files/report.PDF",
          ⟨(pyStrip (textOf "https://example.justice.gov/files/report.PDF")).data.take 100⟩,
          "example.justice.gov"⟩ := by
  refine ⟨?_, ?_, ?_, ?_, rfl⟩
  · intro h
    have hb : (pyStrip href = "" || strBegins (pyStrip href) "#" ||
        strBegins (pyStrip href) "javascript:") = true := by
      rcases h with h | h | h <;> simp [h]
    simp [spiderClassify, hb]
  · intro hs
    unfold resolveHref
    rw [if_pos hs]
  · intro l h
    by_cases hg : (pyStrip href = "" || strBegins (pyStrip href) "#" ||
        strBegins (pyStrip href) "javascript:") = true
    · simp [spiderClassify, hg] at h
    · by_cases hd : strFinishes (netlocOf (resolveHref base (pyStrip href)))
          "justice.gov" = true
      · by_cases hp : strFinishes (strLower (resolveHref base (pyStrip href)))
            ".pdf" = true
        · simp only [spiderClassify, hg, Bool.false_eq_true, if_false, hd,
            Bool.not_true, hp, if_true] at h
          injection h with h
          subst h
          exact ⟨hp, hd, rfl⟩
        · simp only [spiderClassify, hg, Bool.false_eq_true, if_false, hd,
            Bool.not_true, hp, if_true] at h
          simp [Bool.not_eq_true] at hp
          simp [hp] at h
      · simp only [spiderClassify, hg, Bool.false_eq_true, if_false] at h
        simp [Bool.not_eq_true] at hd
        simp [hd] at h
  · intro l h
    by_cases hg : (pyStrip href = "" || strBegins (pyStrip href) "#" ||
        strBegins (pyStrip href) "javascript:") = true
    · simp [spiderClassify, hg] at h
    · by_cases hd : strFinishes (netlocOf (resolveHref base (pyStrip href)))
          "justice.gov" = true
      · by_cases hp : strFinishes (strLower (resolveHref base (pyStrip href)))
            ".pdf" = true
        · simp only [spiderClassify, hg, Bool.false_eq_true, if_false, hd,
            Bool.not_true, hp, if_true] at h
          simp [hp] at h
        · simp only [spiderClassify, hg, Bool.false_eq_true, if_false, hd,
            Bool.not_true, hp, if_true] at h
          simp only [Bool.not_eq_true] at hp
          injection h with h
          subst h
          exact ⟨hp, hd, rfl⟩
      · simp only [spiderClassify, hg, Bool.false_eq_true, if_false] at h
        simp [Bool.not_eq_true] at hd
        simp [hd] at h

/-- C7 witness: a fragment-only href is rejected, and a leading-slash
href resolves against the scheme and host of the base. -/
theorem C7_link_classification_witness :
    (pyStrip "#top" = "" ∨ strBegins (pyStrip "#top") "#" = true ∨
        strBegins (pyStrip "#top") "javascript:" = true) ∧
      spiderClassify noText "https://example.justice.gov/page" "#top" = SClass.dropped ∧
      strBegins (pyStrip "/files/report.PDF") "/" = true ∧
      resolveHref "https://example.justice.gov/page" (pyStrip "/files/report.PDF") =
        schemeOf "https://example.justice.gov/page" ++ "://" ++
          netlocOf "https://example.justice.gov/page" ++ pyStrip "/files/report.PDF" :=
  ⟨Or.inr (Or.inl (by decide)),
    (C7_link_classification noText "https://example.justice.gov/page" "#top").1
      (Or.inr (Or.inl (by decide))),
    by decide,
    (C7_link_classification noText "https://example.justice.gov/page"
      "/files/report.PDF").2.1 (by decide)⟩

/-- C7 counterexample: the source tests the `.pdf` suffix on the whole
URL, not on its path — `/search?q=.pdf` is classified as a PDF link even
though the resolved URL's path `/search` does not end in `.pdf`; and an
external URL whose path does end in `.pdf` is dropped entirely rather
than tagged. Both contradict "Document exactly when its path ends in
`.pdf` ... otherwise InternalNav/ExternalNav". -/
theorem C7_query_suffix_counterexample :
    spiderClassify noText "https://example.justice.gov/page" "/search?q=.pdf" =
      SClass.pdfLink ⟨"https://example.justice.gov/search?q=.pdf", "",
        "example.justice.gov"⟩ ∧
      strFinishes (strLower (pathOf "https://example.justice.gov/search?q=.pdf"))
        ".pdf" = false ∧
      strFinishes (strLower (pathOf "https://other.com/c.pdf")) ".pdf" = true ∧
      spiderClassify noText "https://example.justice.gov/page" "https://other.com/c.pdf" =
        SClass.dropped := by
  refine ⟨?_, ?_, ?_, ?_⟩ <;> decide
